import Mathlib

/-!
Verification of the CKJAPAN-LLTS field-station pipeline.

Shallow embedding of the Python sources:
  * `src/main.py`            — capture-file name encoding (CaptureWriter)
  * `src/data_processor.py`  — SegmentDetector: filename parsing/filtering,
                               voltage conversion, windowed peak search,
                               timestamp carry, segment-file emission
  * `src/data_uploader.py`   — Uploader: batched upload with delete-on-success
  * `src/devices/usrp_recorder.py`, `src/devices/usrp_recorder_sim.py`
                             — acquisition queue push behaviour

Python strings are modelled as `List Char`, sample values as `ℚ` (the float
arithmetic of the source is modelled exactly; no claim in scope depends on
binary floating-point rounding), machine integers as `ℕ`.
-/

namespace LLTS

/-! ## Decimal strings

Python `str(n)` for a natural number, and `int(s)` on a digit string.
`nat_repr` is fuel-based so the kernel can evaluate it. -/

/-- One step of Python `int(s)`: accumulate a decimal digit character. -/
def digitStep (a : ℕ) (c : Char) : ℕ := 10 * a + (c.toNat - 48)

/-- Python `int(s)` on a string of decimal digit characters. -/
def digitsVal (s : List Char) : ℕ := s.foldl digitStep 0

/-- Helper for `nat_repr`: digits of `n` most-significant first, with fuel. -/
def natReprAux : ℕ → ℕ → List Char
  | 0, _ => []
  | fuel + 1, n => if n = 0 then [] else natReprAux fuel (n / 10) ++ [Nat.digitChar (n % 10)]

/-- Python `str(n)` for a natural number `n`. -/
def nat_repr (n : ℕ) : List Char := if n = 0 then ['0'] else natReprAux n n

/-- Python `s.zfill(w)` / `f"{n:0wd}"`: left-pad with `'0'` to width `w`. -/
def zfill (w : ℕ) (s : List Char) : List Char := List.replicate (w - s.length) '0' ++ s

/-! ## Capture filename encode (src/main.py) and parse (src/data_processor.py) -/

/-- The stem of a capture filename as composed by `main` in `src/main.py`:
`f"{site_name}{seconds}.{microseconds:07d}"` (before `np.save` appends `.npy`). -/
def encode_stem (site : List Char) (seconds microseconds : ℕ) : List Char :=
  site ++ nat_repr seconds ++ '.' :: zfill 7 (nat_repr microseconds)

/-- Filename parsing in `DataProcessor.run` (`src/data_processor.py` lines 59-60):
`file_sec = int(stem[4:14])`, `file_microsec = int(stem[15:22])`. -/
def parse_stem (stem : List Char) : ℕ × ℕ :=
  (digitsVal ((stem.drop 4).take 10), digitsVal ((stem.drop 15).take 7))

/-! ## SegmentDetector: file filtering (`DataProcessor.run`) -/

/-- What `DataProcessor.run` does with one listed file: `skip` models the
`continue` taken when `len(stem) != 22 or file_ext == "over"`; `process sec μs`
models parsing the name then reading, detecting and finally removing the file. -/
inductive DetectorAction where
  | skip : DetectorAction
  | process : ℕ → ℕ → DetectorAction
deriving DecidableEq

/-- Per-file dispatch in `DataProcessor.run` (`src/data_processor.py` lines 56-60):
`file_ext = file_name.split(".")[-1].lower()`; skip when the stem length is not
22 or the extension is `over`, otherwise parse the timestamp fields. -/
def run_file_step (stem ext : List Char) : DetectorAction :=
  if stem.length ≠ 22 ∨ ext.map Char.toLower = ['o', 'v', 'e', 'r'] then DetectorAction.skip
  else DetectorAction.process (parse_stem stem).1 (parse_stem stem).2

/-- The files one pass of `DataProcessor.run` hands to `_read_complex_data` and
`_process_segments`: none when at most one file is pending (the `fileCount <= 1`
sleep branch), otherwise exactly the files passing the stem/extension gate.
A file is a `(stem, extension)` pair. -/
def files_read (files : List (List Char × List Char)) : List (List Char × List Char) :=
  if files.length ≤ 1 then []
  else files.filter fun f => decide (run_file_step f.1 f.2 ≠ DetectorAction.skip)

/-- The files still present after one pass of `DataProcessor.run`: `os.remove`
runs only after a successful read and process, so skipped files and files whose
`np.load` failed (`readOk f = false`, the `complex_array is None` branch)
survive. -/
def detector_cycle (readOk : List Char × List Char → Bool)
    (files : List (List Char × List Char)) : List (List Char × List Char) :=
  if files.length ≤ 1 then files
  else files.filter fun f => decide (run_file_step f.1 f.2 = DetectorAction.skip) || !readOk f

/-! ## SegmentDetector: peak detection (`src/data_processor.py` lines 92-148)

A sample buffer is modelled as a function `v : ℕ → ℚ` (index to value) together
with its length `n`; `v` is the already-loaded array, values in exact rationals. -/

/-- Source `_digital_to_voltage`: `voltage_mv = np.real(complex_data) * adc_voltage_range * 1000`;
`re` is the real (in-phase) component of the complex samples. -/
def digital_to_voltage (adc_voltage_range : ℚ) (re : ℕ → ℚ) : ℕ → ℚ :=
  fun k => re k * adc_voltage_range * 1000

/-- Source `sample_window = int(self.sample_rate * 0.001)` — the 1 ms window size
(exact arithmetic: `sample_rate / 1000` rounded down). -/
def sample_window (sample_rate : ℕ) : ℕ := sample_rate / 1000

/-- Source `window_data = voltage[i:i+sample_window]`. -/
def windowData (v : ℕ → ℚ) (n w i : ℕ) : List ℚ :=
  (List.range (min w (n - i))).map fun j => v (i + j)

/-- The largest absolute value in a window (`np.max(np.abs(window_data))`,
`0` for an empty window). -/
def maxAbs (l : List ℚ) : ℚ := l.foldr (fun x m => max |x| m) 0

/-- Source `peak_idx = np.argmax(np.abs(window_data))`: index of the first sample of
maximal absolute value (`np.argmax` returns the first occurrence). -/
def argmaxAbs (l : List ℚ) : ℕ := l.findIdx fun x => decide (|x| = maxAbs l)

/-- Python `round(x, 2)`. Mathlib `round` rounds half away from zero toward +∞
while Python rounds half to even; no claim in scope exercises an exact half-tie
at the second decimal place. -/
def round2 (x : ℚ) : ℚ := (round (x * 100) : ℤ) / 100

/-- The body of one iteration of the window loop in `_find_peak_values`
(`src/data_processor.py` lines 111-124): round the first maximal-|·| sample to
2 decimals; if `abs(peak_value) >= trigger_level`, emit it together with
`peak_time = int((i + peak_idx) / sample_rate * 1e6 * 10)` (exact arithmetic:
floor, i.e. natural division). -/
def windowStep (sample_rate : ℕ) (trigger_level : ℚ) (v : ℕ → ℚ) (n i : ℕ) :
    Option (ℚ × ℕ) :=
  if trigger_level ≤ |round2 ((windowData v n (sample_window sample_rate) i).getD
        (argmaxAbs (windowData v n (sample_window sample_rate) i)) 0)| then
    some (round2 ((windowData v n (sample_window sample_rate) i).getD
        (argmaxAbs (windowData v n (sample_window sample_rate) i)) 0),
      (i + argmaxAbs (windowData v n (sample_window sample_rate) i)) * 10000000 / sample_rate)
  else none

/-- Source `range(0, len(voltage), sample_window)`: the window start offsets. -/
def windowStarts (n w : ℕ) : List ℕ := (List.range ((n + w - 1) / w)).map (· * w)

/-- Source `_find_peak_values`: the `(peak_value, peak_time)` pairs collected over all
windows (the source builds two parallel lists appended in lockstep; they are
modelled as one list of pairs). -/
def find_peak_values (sample_rate : ℕ) (trigger_level : ℚ) (v : ℕ → ℚ) (n : ℕ) :
    List (ℚ × ℕ) :=
  (windowStarts n (sample_window sample_rate)).filterMap
    (windowStep sample_rate trigger_level v n)

/-! ## SegmentDetector: timestamping and emission -/

/-- One element of the `peak_times_sec` comprehension in `_process_segments`
(`src/data_processor.py` lines 136-142): the string
`f"{file_sec}.{str(file_microsec + time).zfill(7)}"`, or with one second carried
when the fraction sum reaches 10,000,000.  Modelled as the pair
(integer part, fraction digit string). -/
def peakTimeSec (file_sec file_microsec t : ℕ) : ℕ × List Char :=
  if file_microsec + t < 10000000 then
    (file_sec, zfill 7 (nat_repr (file_microsec + t)))
  else
    (file_sec + 1, zfill 7 (nat_repr (file_microsec + t - 10000000)))

/-- Source `_process_segments`: voltage conversion, peak search, per-peak timestamped
entries `(second, fraction-string, value)` in emission order. -/
def process_segments (sample_rate : ℕ) (trigger_level adc_voltage_range : ℚ)
    (re : ℕ → ℚ) (n file_sec file_microsec : ℕ) : List (ℕ × List Char × ℚ) :=
  (find_peak_values sample_rate trigger_level (digital_to_voltage adc_voltage_range re) n).map
    fun p => ((peakTimeSec file_sec file_microsec p.2).1,
              (peakTimeSec file_sec file_microsec p.2).2, p.1)

/-- The lines `_write_to_file` (`src/data_processor.py` lines 177-196) appends to
the segment file of second `sec`: it groups entries by
`time_sec = int(float(time))` (the integer part of the timestamp string) and for
each writes `f"{time_decimal}={value}"` with
`time_decimal = int(str(time).split('.')[1])` — the fraction digit string parsed
back to an integer, i.e. `nat_repr (digitsVal fracStr)` when printed again.
A line is modelled as (fraction field characters, value). -/
def write_to_file (entries : List (ℕ × List Char × ℚ)) (sec : ℕ) : List (List Char × ℚ) :=
  (entries.filter fun e => e.1 == sec).map
    fun e => (nat_repr (digitsVal e.2.1), e.2.2)

/-- The synthetic spike buffer of the end-to-end scenario: the real component is
1/2 (i.e. 500 mV after conversion with `adc_voltage_range = 1`) at sample index
1,500,000 and 0 elsewhere. -/
def reSpike : ℕ → ℚ := fun k => if k = 1500000 then 1 / 2 else 0

/-! ## Uploader (`src/data_uploader.py`) -/

/-- Source `SFTPUploader.upload_file` (lines 81-108): `sftp.put` then, only on success,
`os.remove`; any exception leaves the file in place and returns `False`.
`putOk` is whether `sftp.put` completed; the result is
(local file removed?, returned success flag). -/
def upload_file (putOk : Bool) : Bool × Bool :=
  if putOk then (true, true) else (false, false)

/-- The per-batch upload loop in `SFTPUploader.run`: upload files in order,
breaking at the first failed `upload_file`.  Returns
(files deleted locally, files still present, in order). -/
def uploadLoop {α : Type} (ok : α → Bool) : List α → List α × List α
  | [] => ([], [])
  | f :: fs =>
      if (upload_file (ok f)).2 then
        ((uploadLoop ok fs).1.cons f, (uploadLoop ok fs).2)
      else ([], f :: fs)

/-- One uploader cycle: `upload_count = min(len(file_list), 50)` files are
attempted (`file_list[:upload_count]`), the rest are untouched. -/
def upload_cycle {α : Type} (ok : α → Bool) (files : List α) : List α × List α :=
  ((uploadLoop ok (files.take 50)).1, (uploadLoop ok (files.take 50)).2 ++ files.drop 50)

/-! ## Acquisition queue (`src/devices/usrp_recorder.py`, `usrp_recorder_sim.py`)

`queue.Queue(maxsize=100)` modelled as a bounded FIFO; outcomes of `put` with no
concurrent consumer: a `put(timeout=τ)` on a full queue raises `queue.Full`
after the timeout, a bare blocking `put()` on a full queue waits indefinitely
(it never raises `queue.Full`). -/

structure SampleQueue (α : Type) where
  maxsize : ℕ
  items : List α
deriving DecidableEq

/-- Python `Queue.full()`-equivalent for `maxsize > 0` queues. -/
def qFull {α : Type} (q : SampleQueue α) : Bool := decide (q.maxsize ≤ q.items.length)

inductive PutOutcome (α : Type) where
  | enqueued : SampleQueue α → PutOutcome α
  | raisedFull : SampleQueue α → PutOutcome α
  | blocked : SampleQueue α → PutOutcome α
deriving DecidableEq

/-- Python `q.put(x, timeout=τ)` with no consumer draining during `τ`. -/
def put_timeout {α : Type} (q : SampleQueue α) (x : α) : PutOutcome α :=
  if qFull q then PutOutcome.raisedFull q
  else PutOutcome.enqueued ⟨q.maxsize, q.items ++ [x]⟩

/-- Python `q.put(x)` — blocking, no timeout — with no consumer draining. -/
def put_blocking {α : Type} (q : SampleQueue α) (x : α) : PutOutcome α :=
  if qFull q then PutOutcome.blocked q
  else PutOutcome.enqueued ⟨q.maxsize, q.items ++ [x]⟩

/-- The queue hand-off in `USRPRecorder.receive_samples`
(`src/devices/usrp_recorder.py` lines 90-95):
`try: self.data_queue.put((buffer, ts), timeout=0.1) except queue.Full: print(...)`.
Returns the resulting queue and whether the buffer was dropped. -/
def receive_samples_push {α : Type} (q : SampleQueue α) (x : α) : SampleQueue α × Bool :=
  match put_timeout q x with
  | PutOutcome.enqueued q' => (q', false)
  | PutOutcome.raisedFull q' => (q', true)
  | PutOutcome.blocked q' => (q', false)

/-- The queue hand-off in `USRPSim.receive_samples`
(`src/devices/usrp_recorder_sim.py` lines 62-70): a bare
`self.data_queue.put((buffer.copy(), timestamp))` inside a
`try: ... except queue.Full:` — the put is blocking, so on a full queue the
outcome is `blocked`, never `raisedFull`. -/
def receive_samples_sim_push {α : Type} (q : SampleQueue α) (x : α) : PutOutcome α :=
  put_blocking q x

/-! ### Digit-string lemmas -/

theorem digitStep_digitChar (a : ℕ) {d : ℕ} (hd : d < 10) :
    digitStep a (Nat.digitChar d) = 10 * a + d := by
  interval_cases d <;> rfl

theorem natReprAux_zero (fuel : ℕ) : natReprAux fuel 0 = [] := by
  cases fuel <;> simp [natReprAux]

theorem foldl_natReprAux (fuel : ℕ) : ∀ n a, 0 < n → n ≤ fuel →
    List.foldl digitStep a (natReprAux fuel n) = a * 10 ^ (natReprAux fuel n).length + n := by
  induction fuel with
  | zero => intro n a hn hle; omega
  | succ fuel ih =>
      intro n a hn hle
      have hne : ¬ n = 0 := by omega
      rw [natReprAux, if_neg hne]
      rcases Nat.eq_zero_or_pos (n / 10) with hq | hq
      · rw [hq, natReprAux_zero]
        simp only [List.nil_append, List.foldl_cons, List.foldl_nil, List.length_cons,
          List.length_nil]
        rw [digitStep_digitChar a (Nat.mod_lt n (by norm_num)), pow_one]
        omega
      · have hq' : n / 10 ≤ fuel := by omega
        rw [List.foldl_append, ih (n / 10) a hq hq']
        have hlt : n % 10 < 10 := Nat.mod_lt n (by norm_num)
        simp only [List.foldl_cons, List.foldl_nil, List.length_append, List.length_cons,
          List.length_nil, digitStep_digitChar _ hlt]
        have := Nat.div_add_mod n 10
        ring_nf
        omega

/-- Round trip `int(str(n)) = n`: the decimal printer and parser are inverse. -/
theorem digitsVal_nat_repr (n : ℕ) : digitsVal (nat_repr n) = n := by
  rcases Nat.eq_zero_or_pos n with h | h
  · subst h; rfl
  · rw [nat_repr, if_neg (by omega), digitsVal, foldl_natReprAux n n 0 h le_rfl]
    simp

/-- Length of the decimal representation. -/
theorem natReprAux_length (fuel : ℕ) : ∀ n e, 0 < n → n ≤ fuel →
    10 ^ e ≤ n → n < 10 ^ (e + 1) → (natReprAux fuel n).length = e + 1 := by
  induction fuel with
  | zero => intro n e hn hle; omega
  | succ fuel ih =>
      intro n e hn hle hlow hhigh
      have hne : ¬ n = 0 := by omega
      rw [natReprAux, if_neg hne]
      rcases Nat.eq_zero_or_pos (n / 10) with hq | hq
      · have hn10 : n < 10 := by omega
        have he : e = 0 := by
          by_contra he
          have : 10 ^ 1 ≤ 10 ^ e := Nat.pow_le_pow_right (by norm_num) (by omega)
          omega
        rw [hq, natReprAux_zero]
        simp [he]
      · have he : 1 ≤ e := by
          by_contra he
          have he0 : e = 0 := by omega
          have : n < 10 := by
            have := hhigh; rw [he0] at this; simpa using this
          omega
        have h1 : 10 ^ (e - 1) ≤ n / 10 := by
          have : 10 ^ (e - 1) * 10 ≤ n := by
            have : 10 ^ (e - 1) * 10 = 10 ^ e := by
              rw [← pow_succ]; congr 1; omega
            omega
          omega
        have h2 : n / 10 < 10 ^ (e - 1 + 1) := by
          have he' : e - 1 + 1 = e := by omega
          rw [he']
          have : n < 10 ^ e * 10 := by
            have : 10 ^ e * 10 = 10 ^ (e + 1) := by rw [← pow_succ]
            omega
          omega
        have := ih (n / 10) (e - 1) hq (by omega) h1 h2
        simp only [List.length_append, List.length_cons, List.length_nil, this]
        omega

theorem nat_repr_length {n e : ℕ} (hlow : 10 ^ e ≤ n) (hhigh : n < 10 ^ (e + 1)) :
    (nat_repr n).length = e + 1 := by
  have hn : 0 < n := lt_of_lt_of_le (Nat.pos_pow_of_pos e (by norm_num) : 0 < 10 ^ e) hlow
  rw [nat_repr, if_neg (by omega)]
  exact natReprAux_length n n e hn le_rfl hlow hhigh

theorem nat_repr_length_le {n e : ℕ} (he : 0 < e) (h : n < 10 ^ e) :
    (nat_repr n).length ≤ e := by
  rcases Nat.eq_zero_or_pos n with h0 | h0
  · subst h0
    simpa [nat_repr] using he
  · have hlog : Nat.log 10 n < e := Nat.log_lt_of_lt_pow (by omega) h
    have := nat_repr_length (e := Nat.log 10 n)
      (Nat.pow_log_le_self 10 (by omega)) (Nat.lt_pow_succ_log_self (by norm_num) n)
    omega

theorem digitsVal_append (s t : List Char) :
    digitsVal (s ++ t) = List.foldl digitStep (digitsVal s) t := by
  simp [digitsVal, List.foldl_append]

/-- Leading zeros do not change the parsed value: `int(s.zfill(w)) = int(s)`. -/
theorem digitsVal_zfill (w : ℕ) (s : List Char) : digitsVal (zfill w s) = digitsVal s := by
  have hz : ∀ k, digitsVal (List.replicate k '0') = 0 := by
    intro k
    induction k with
    | zero => rfl
    | succ k ih =>
        rw [List.replicate_succ]
        show List.foldl digitStep (digitStep 0 '0') (List.replicate k '0') = 0
        rw [show digitStep 0 '0' = 0 from rfl]
        exact ih
  rw [zfill, digitsVal_append, hz]
  rfl

theorem zfill_length {w : ℕ} {s : List Char} (h : s.length ≤ w) : (zfill w s).length = w := by
  simp [zfill]; omega

/-- Encode/parse round-trip under the filename invariant: a 4-character site
name and a 10-digit second put the second in stem positions 4..13 and the
padded fraction in positions 15..21. -/
theorem parse_stem_encode_stem {site : List Char} {S F : ℕ}
    (hsite : site.length = 4) (hSlow : 1000000000 ≤ S) (hShigh : S < 10000000000)
    (hF : F < 10000000) :
    parse_stem (encode_stem site S F) = (S, F) := by
  have hSlen : (nat_repr S).length = 10 :=
    nat_repr_length (e := 9) (by norm_num; omega) (by norm_num; omega)
  have hFlen : (nat_repr F).length ≤ 7 := by
    rcases Nat.eq_zero_or_pos F with h | h
    · subst h; simp [nat_repr]
    · have hlog : Nat.log 10 F < 7 := Nat.log_lt_of_lt_pow (by omega) (by norm_num; omega)
      have := nat_repr_length (n := F) (e := Nat.log 10 F)
        (Nat.pow_log_le_self 10 (by omega)) (Nat.lt_pow_succ_log_self (by norm_num) F)
      omega
  have hzlen : (zfill 7 (nat_repr F)).length = 7 := zfill_length hFlen
  unfold parse_stem encode_stem
  rw [Prod.mk.injEq]
  constructor
  · -- second field: drop the site, take the 10 digits
    rw [List.append_assoc, show (4 : ℕ) = site.length from hsite.symm, List.drop_left]
    rw [show List.take 10 (nat_repr S ++ '.' :: zfill 7 (nat_repr F))
          = List.take (nat_repr S).length (nat_repr S ++ '.' :: zfill 7 (nat_repr F))
        from by rw [hSlen]]
    rw [List.take_left]
    exact digitsVal_nat_repr S
  · -- fraction field: drop site + seconds + dot, take the 7 digits
    have h15 : (15 : ℕ) = (site ++ nat_repr S ++ ['.']).length := by
      simp [hsite, hSlen]
    rw [show site ++ nat_repr S ++ '.' :: zfill 7 (nat_repr F)
          = (site ++ nat_repr S ++ ['.']) ++ zfill 7 (nat_repr F) from by simp]
    rw [h15, List.drop_left, List.take_of_length_le (le_of_eq hzlen)]
    rw [digitsVal_zfill]
    exact digitsVal_nat_repr F

/-- C2: for an integer second S and 7-digit fraction F satisfying the spec's
filename invariant (4-character site name, 10-digit second, 0 ≤ F ≤ 9,999,999),
encoding a capture filename as the writer does (site, then S, then '.', then F
zero-padded to 7 digits) and parsing it as the detector does (second from stem
positions 4..13, fraction from positions 15..21) yields back exactly (S, F). -/
theorem c2_filename_roundtrip {site : List Char} {S F : ℕ} (hsite : site.length = 4)
    (hSlow : 1000000000 ≤ S) (hShigh : S < 10000000000) (hF : F < 10000000) :
    parse_stem (encode_stem site S F) = (S, F) :=
  parse_stem_encode_stem hsite hSlow hShigh hF

/-- Witness for C2 at a concrete site name, second and fraction. -/
theorem c2_filename_roundtrip_witness :
    (['C', 'K', 'J', 'P'] : List Char).length = 4 ∧ 123456 < 10000000 ∧
    parse_stem (encode_stem ['C', 'K', 'J', 'P'] 1712345678 123456) = (1712345678, 123456) :=
  ⟨by decide, by norm_num,
    c2_filename_roundtrip (by decide) (by norm_num) (by norm_num) (by norm_num)⟩

/-- C4: carry correctness.  A peak whose base fraction plus elapsed time sums to
`s ≥ 10,000,000` is attributed to `second+1` with fraction `s - 10,000,000`;
a sum `s ≤ 9,999,999` (including exactly 9,999,999) stays in the original
second with fraction `s`.  The numeric value of the written fraction string is
stated via `digitsVal`. -/
theorem c4_carry_correct (file_sec file_microsec t : ℕ) :
    (10000000 ≤ file_microsec + t →
      peakTimeSec file_sec file_microsec t
          = (file_sec + 1, zfill 7 (nat_repr (file_microsec + t - 10000000))) ∧
      digitsVal (peakTimeSec file_sec file_microsec t).2 = file_microsec + t - 10000000) ∧
    (file_microsec + t ≤ 9999999 →
      peakTimeSec file_sec file_microsec t
          = (file_sec, zfill 7 (nat_repr (file_microsec + t))) ∧
      digitsVal (peakTimeSec file_sec file_microsec t).2 = file_microsec + t) := by
  constructor
  · intro h
    have hcond : ¬ (file_microsec + t < 10000000) := by omega
    unfold peakTimeSec
    rw [if_neg hcond]
    exact ⟨rfl, by rw [digitsVal_zfill, digitsVal_nat_repr]⟩
  · intro h
    have hcond : file_microsec + t < 10000000 := by omega
    unfold peakTimeSec
    rw [if_pos hcond]
    exact ⟨rfl, by rw [digitsVal_zfill, digitsVal_nat_repr]⟩

/-- Witness for C4: a sum of exactly 9,999,999 stays in second 5; a sum of
exactly 10,000,000 carries into second 6 with fraction 0. -/
theorem c4_carry_correct_witness :
    peakTimeSec 5 2500000 7499999 = (5, zfill 7 (nat_repr 9999999)) ∧
    peakTimeSec 5 2500000 7500000 = (5 + 1, zfill 7 (nat_repr 0)) := by
  have h1 := ((c4_carry_correct 5 2500000 7499999).2 (by norm_num)).1
  have h2 := ((c4_carry_correct 5 2500000 7500000).1 (by norm_num)).1
  exact ⟨h1, h2⟩

/-- The upload loop deletes exactly the largest all-successful leading run, and
the remaining files (in order) are untouched. -/
theorem uploadLoop_eq (ok : List Char → Bool) (l : List (List Char)) :
    uploadLoop ok l = (l.takeWhile ok, l.dropWhile ok) := by
  induction l with
  | nil => rfl
  | cons f fs ih =>
      by_cases h : ok f
      · simp [uploadLoop, upload_file, h, ih, List.takeWhile_cons, List.dropWhile_cons]
      · simp [uploadLoop, upload_file, h, List.takeWhile_cons, List.dropWhile_cons]

/-- C7: a local segment file is deleted by the uploader cycle exactly when its
transfer completed successfully (the cycle attempts the first 50 files and
stops at the first failure, so the deleted files are precisely the successful
leading run of the batch); every deleted file had a successful upload, and all
other files remain, in order, for a later cycle. -/
theorem c7_delete_iff_uploaded (ok : List Char → Bool) (files : List (List Char)) :
    (upload_cycle ok files).1 = (files.take 50).takeWhile ok ∧
    (∀ f ∈ (upload_cycle ok files).1, ok f = true) ∧
    (upload_cycle ok files).1 ++ (upload_cycle ok files).2 = files := by
  refine ⟨?_, ?_, ?_⟩
  · unfold upload_cycle
    rw [uploadLoop_eq]
  · intro f hf
    unfold upload_cycle at hf
    rw [uploadLoop_eq] at hf
    exact List.mem_takeWhile_imp hf
  · unfold upload_cycle
    rw [uploadLoop_eq]
    simp only []
    rw [← List.append_assoc, List.takeWhile_append_dropWhile, List.take_append_drop]

/-- Witness for C7 on a concrete batch: files `a`, `b` upload, `c` fails, `d`
is not attempted; `a` and `b` are deleted and `c`, `d` remain. -/
theorem c7_delete_iff_uploaded_witness :
    (upload_cycle (fun f => decide (f.length ≤ 1)) [['a'], ['b'], ['c', 'c'], ['d']]).1
        ++ (upload_cycle (fun f => decide (f.length ≤ 1)) [['a'], ['b'], ['c', 'c'], ['d']]).2
      = [['a'], ['b'], ['c', 'c'], ['d']] ∧
    ∀ f ∈ (upload_cycle (fun f => decide (f.length ≤ 1)) [['a'], ['b'], ['c', 'c'], ['d']]).1,
      (fun f => decide (f.length ≤ 1)) f = true :=
  ⟨(c7_delete_iff_uploaded _ _).2.2, (c7_delete_iff_uploaded _ _).2.1⟩

/-- C8 (code evaluated at the failing input): with the acquisition queue at its
capacity of 100 buffers, the simulator's bare blocking `put` waits indefinitely
(outcome `blocked`; `queue.Full` is never raised, so its handler is dead code),
whereas the real recorder's `put(timeout=0.1)` raises `queue.Full`, drops the
buffer and leaves the queue contents unchanged. -/
theorem c8_sim_push_blocks :
    receive_samples_sim_push (SampleQueue.mk 100 (List.replicate 100 (0 : ℕ))) 7
        = PutOutcome.blocked (SampleQueue.mk 100 (List.replicate 100 0)) ∧
    receive_samples_push (SampleQueue.mk 100 (List.replicate 100 (0 : ℕ))) 7
        = (SampleQueue.mk 100 (List.replicate 100 0), true) := by
  constructor
  · rfl
  · rfl

/-- C9: a listed capture file whose stem length is not exactly 22, or whose
extension is the in-progress/overflow marker `over`, is never handed to the
read/peak-detection stage and is still present after the detector cycle. -/
theorem c9_malformed_skipped (files : List (List Char × List Char))
    (readOk : List Char × List Char → Bool) (f : List Char × List Char)
    (h : f.1.length ≠ 22 ∨ f.2.map Char.toLower = ['o', 'v', 'e', 'r']) :
    f ∉ files_read files ∧ (f ∈ files → f ∈ detector_cycle readOk files) := by
  have hstep : run_file_step f.1 f.2 = DetectorAction.skip := by
    unfold run_file_step
    rw [if_pos h]
  constructor
  · unfold files_read
    split
    · simp
    · intro hmem
      have hdec := (List.mem_filter.mp hmem).2
      rw [hstep] at hdec
      simp at hdec
  · intro hf
    unfold detector_cycle
    split
    · exact hf
    · refine List.mem_filter.mpr ⟨hf, ?_⟩
      rw [hstep]
      simp

/-- Witness for C9: a 21-character stem is skipped and survives the cycle while
another file is present. -/
theorem c9_malformed_skipped_witness :
    (List.replicate 21 'a', ['n', 'p', 'y']) ∉
      files_read [(List.replicate 21 'a', ['n', 'p', 'y']),
                  (List.replicate 22 'b', ['n', 'p', 'y'])] ∧
    (List.replicate 21 'a', ['n', 'p', 'y']) ∈
      detector_cycle (fun _ => true)
        [(List.replicate 21 'a', ['n', 'p', 'y']), (List.replicate 22 'b', ['n', 'p', 'y'])] := by
  have h := c9_malformed_skipped
    [(List.replicate 21 'a', ['n', 'p', 'y']), (List.replicate 22 'b', ['n', 'p', 'y'])]
    (fun _ => true) (List.replicate 21 'a', ['n', 'p', 'y']) (Or.inl (by decide))
  exact ⟨h.1, h.2 (by simp)⟩

/-- C1 counterexample: an emitted peak in second 1699999999 with 7-digit scaled
fraction 123456 (which has a leading zero when padded) is written by
`_write_to_file` with fraction field `123456` — six characters, not the
zero-padded `0123456` the claim requires. -/
theorem c1_counterexample :
    write_to_file [((peakTimeSec 1699999999 123456 0).1,
        (peakTimeSec 1699999999 123456 0).2, (500 : ℚ))] 1699999999
      = [(nat_repr 123456, 500)] ∧
    nat_repr 123456 ≠ zfill 7 (nat_repr 123456) ∧
    (nat_repr 123456).length = 6 ∧ (zfill 7 (nat_repr 123456)).length = 7 := by
  refine ⟨by decide, by decide, by decide, by decide⟩

/-- C1 amended: every line `_write_to_file` appends for an emitted peak with
scaled-microsecond fraction f (0 ≤ f ≤ 9,999,999) has as its fraction field the
plain decimal representation of f with leading zeros stripped (`int` applied to
the padded string) — the numeric value f is preserved but the field is not
zero-padded to 7 digits. -/
theorem c1_fraction_unpadded (entries : List (ℕ × List Char × ℚ)) (sec : ℕ)
    (h : ∀ e ∈ entries, ∃ f < 10000000, e.2.1 = zfill 7 (nat_repr f)) :
    ∀ line ∈ write_to_file entries sec, ∃ f < 10000000,
      line.1 = nat_repr f ∧ digitsVal line.1 = f := by
  intro line hline
  unfold write_to_file at hline
  rcases List.mem_map.mp hline with ⟨e, he, rfl⟩
  rcases h e (List.mem_of_mem_filter he) with ⟨f, hf, hfe⟩
  refine ⟨f, hf, ?_, ?_⟩
  · rw [hfe, digitsVal_zfill, digitsVal_nat_repr]
  · rw [hfe, digitsVal_zfill, digitsVal_nat_repr, digitsVal_nat_repr]

/-- Witness for C1 (amended) at the concrete one-entry batch with fraction 3:
the written line's fraction field carries value 3 without padding. -/
theorem c1_fraction_unpadded_witness :
    ∃ f < 10000000,
      (nat_repr (digitsVal (zfill 7 (nat_repr 3))), (250 : ℚ)).1 = nat_repr f ∧
      digitsVal (nat_repr (digitsVal (zfill 7 (nat_repr 3))), (250 : ℚ)).1 = f := by
  have h : ∀ e ∈ [(7, zfill 7 (nat_repr 3), (250 : ℚ))],
      ∃ f < 10000000, e.2.1 = zfill 7 (nat_repr f) := by
    intro e he
    simp only [List.mem_singleton] at he
    subst he
    exact ⟨3, by norm_num, rfl⟩
  exact c1_fraction_unpadded [(7, zfill 7 (nat_repr 3), (250 : ℚ))] 7 h
    (nat_repr (digitsVal (zfill 7 (nat_repr 3))), (250 : ℚ)) (by decide)

/-! ## Peak-search lemmas -/

theorem maxAbs_nil : maxAbs [] = 0 := rfl

theorem maxAbs_cons (x : ℚ) (l : List ℚ) : maxAbs (x :: l) = max |x| (maxAbs l) := rfl

theorem maxAbs_nonneg (l : List ℚ) : 0 ≤ maxAbs l := by
  induction l with
  | nil => exact le_refl 0
  | cons x l ih => exact le_trans ih (by rw [maxAbs_cons]; exact le_max_right _ _)

theorem le_maxAbs {l : List ℚ} {x : ℚ} (h : x ∈ l) : |x| ≤ maxAbs l := by
  induction l with
  | nil => cases h
  | cons a l ih =>
      rw [maxAbs_cons]
      rcases List.mem_cons.mp h with rfl | h'
      · exact le_max_left _ _
      · exact le_trans (ih h') (le_max_right _ _)

theorem maxAbs_attained {l : List ℚ} (h : l ≠ []) : ∃ x ∈ l, |x| = maxAbs l := by
  induction l with
  | nil => exact absurd rfl h
  | cons a l ih =>
      by_cases hl : l = []
      · subst hl
        exact ⟨a, List.mem_singleton_self a, by rw [maxAbs_cons, maxAbs_nil, max_eq_left (abs_nonneg a)]⟩
      · rcases ih hl with ⟨x, hx, hmax⟩
        rcases le_total (maxAbs l) |a| with hle | hle
        · exact ⟨a, List.mem_cons_self a l, by rw [maxAbs_cons, max_eq_left hle]⟩
        · exact ⟨x, List.mem_cons_of_mem a hx, by rw [maxAbs_cons, max_eq_right hle, hmax]⟩

theorem argmaxAbs_lt_length {l : List ℚ} (h : l ≠ []) : argmaxAbs l < l.length := by
  rcases maxAbs_attained h with ⟨x, hx, hmax⟩
  exact List.findIdx_lt_length_of_exists ⟨x, hx, by simp [hmax]⟩

/-- The sample `np.argmax(np.abs(...))` selects attains the window maximum. -/
theorem abs_getD_argmaxAbs {l : List ℚ} (h : l ≠ []) :
    |l.getD (argmaxAbs l) 0| = maxAbs l := by
  have hlt : argmaxAbs l < l.length := argmaxAbs_lt_length h
  rw [List.getD_eq_getElem l 0 hlt]
  have hlt' : l.findIdx (fun x => decide (|x| = maxAbs l)) < l.length := hlt
  have := List.findIdx_getElem (w := hlt')
  simpa using this

theorem windowData_length (v : ℕ → ℚ) (n w i : ℕ) :
    (windowData v n w i).length = min w (n - i) := by
  simp [windowData]

theorem windowData_getD {v : ℕ → ℚ} {n w i j : ℕ} (h : j < min w (n - i)) :
    (windowData v n w i).getD j 0 = v (i + j) := by
  unfold windowData
  rw [List.getD_eq_getElem _ 0 (by simpa using h)]
  simp

theorem windowData_ne_nil {v : ℕ → ℚ} {n w i : ℕ} (hw : 0 < w) (hi : i < n) :
    windowData v n w i ≠ [] := by
  apply List.ne_nil_of_length_pos
  rw [windowData_length]
  omega

/-- Members of `range(0, n, w)` are below `n`. -/
theorem mem_windowStarts_lt {n w i : ℕ} (hw : 0 < w) (hi : i ∈ windowStarts n w) : i < n := by
  unfold windowStarts at hi
  rcases List.mem_map.mp hi with ⟨m, hm, rfl⟩
  rw [List.mem_range] at hm
  have h2 : (m + 1) * w ≤ n + w - 1 := (Nat.le_div_iff_mul_le hw).mp hm
  have h3 : (m + 1) * w = m * w + w := by ring
  omega

/-- Inversion of the window loop body: what an emitted pair must be. -/
theorem windowStep_some {sr : ℕ} {trig : ℚ} {v : ℕ → ℚ} {n i : ℕ} {p : ℚ × ℕ}
    (h : windowStep sr trig v n i = some p) :
    trig ≤ |p.1| ∧
    p = (round2 ((windowData v n (sample_window sr) i).getD
           (argmaxAbs (windowData v n (sample_window sr) i)) 0),
         (i + argmaxAbs (windowData v n (sample_window sr) i)) * 10000000 / sr) := by
  unfold windowStep at h
  split_ifs at h with hc
  injection h with h'
  subst h'
  exact ⟨hc, rfl⟩

theorem mem_find_peak_values {sr : ℕ} {trig : ℚ} {v : ℕ → ℚ} {n : ℕ} {p : ℚ × ℕ}
    (hp : p ∈ find_peak_values sr trig v n) :
    ∃ i, i ∈ windowStarts n (sample_window sr) ∧ windowStep sr trig v n i = some p :=
  List.mem_filterMap.mp hp

/-- C5: in every processed window, the per-window peak — the first sample of
maximal absolute value, rounded to 2 decimal places — is recorded if and only
if its absolute value is ≥ the trigger level (a value exactly equal to the
trigger level is included); consequently every recorded peak value has
magnitude ≥ the trigger level. -/
theorem c5_threshold_boundary (sr : ℕ) (trig : ℚ) (v : ℕ → ℚ) (n i : ℕ)
    (hw : 0 < sample_window sr) (hi : i ∈ windowStarts n (sample_window sr)) :
    |(windowData v n (sample_window sr) i).getD
        (argmaxAbs (windowData v n (sample_window sr) i)) 0|
      = maxAbs (windowData v n (sample_window sr) i) ∧
    ((windowStep sr trig v n i).isSome ↔
      trig ≤ |round2 ((windowData v n (sample_window sr) i).getD
        (argmaxAbs (windowData v n (sample_window sr) i)) 0)|) ∧
    (∀ p ∈ find_peak_values sr trig v n, trig ≤ |p.1|) := by
  have hne : windowData v n (sample_window sr) i ≠ [] :=
    windowData_ne_nil hw (mem_windowStarts_lt hw hi)
  refine ⟨abs_getD_argmaxAbs hne, ?_, ?_⟩
  · unfold windowStep
    split_ifs with hc
    · exact iff_of_true rfl hc
    · exact iff_of_false (by simp) hc
  · intro p hp
    rcases mem_find_peak_values hp with ⟨j, _, hj⟩
    exact (windowStep_some hj).1

/-- Witness for C5: a constant 150 mV buffer of one sample at 1 kHz with
trigger 100 — the single window is processed and every recorded peak meets the
trigger. -/
theorem c5_threshold_boundary_witness :
    0 < sample_window 1000 ∧ 0 ∈ windowStarts 1 (sample_window 1000) ∧
    (∀ p ∈ find_peak_values 1000 100 (fun _ => (150 : ℚ)) 1, (100 : ℚ) ≤ |p.1|) :=
  ⟨by decide, by decide,
    (c5_threshold_boundary 1000 100 (fun _ => (150 : ℚ)) 1 0 (by decide) (by decide)).2.2⟩

/-- Natural division is the floor of the rational quotient. -/
theorem nat_div_eq_floor (a b : ℕ) : a / b = ⌊(a : ℚ) / (b : ℚ)⌋₊ := by
  rw [Nat.floor_div_nat (a : ℚ) b, Nat.floor_natCast]

/-- Python `round(x, 2)` is the identity on whole numbers. -/
theorem round2_natCast (m : ℕ) : round2 (m : ℚ) = m := by
  unfold round2
  rw [show ((m : ℚ) * 100) = (((m * 100 : ℕ) : ℤ) : ℚ) by push_cast; ring, round_intCast]
  push_cast
  norm_num [mul_div_assoc]

theorem round2_zero : round2 0 = 0 := by
  simpa using round2_natCast 0

/-- The concrete 3-sample run at 3 kHz used for C3: one spike of 500 at
offset 2 is recorded with truncated elapsed time 6666. -/
theorem find_peak_3000 :
    find_peak_values 3000 100 (fun k => if k = 2 then (500 : ℚ) else 0) 3 = [(500, 6666)] := by
  have hwd : windowData (fun k => if k = 2 then (500 : ℚ) else 0) 3 (sample_window 3000) 0
      = [0, 0, 500] := by decide
  have hstep : windowStep 3000 100 (fun k => if k = 2 then (500 : ℚ) else 0) 3 0
      = some (500, 6666) := by
    unfold windowStep
    rw [hwd]
    rw [show argmaxAbs [(0 : ℚ), 0, 500] = 2 from by decide]
    rw [show List.getD [(0 : ℚ), 0, 500] 2 0 = 500 from by decide]
    rw [show round2 (500 : ℚ) = 500 from by simpa using round2_natCast 500]
    rw [if_pos (by norm_num : (100 : ℚ) ≤ |(500 : ℚ)|)]
  unfold find_peak_values
  rw [show windowStarts 3 (sample_window 3000) = [0] from by decide]
  simp [List.filterMap_cons, hstep]

/-- C3 amended: for every emitted peak there is a qualifying intra-buffer
sample offset k with the recorded value `round2 (v k)` and the recorded elapsed
time equal to `⌊k / sample_rate × 1e6 × 10⌋` — the source truncates with
`int(...)`, it does not round to nearest. -/
theorem c3_elapsed_floor (sr : ℕ) (trig : ℚ) (v : ℕ → ℚ) (n : ℕ)
    (hw : 0 < sample_window sr) :
    ∀ p ∈ find_peak_values sr trig v n, ∃ k < n,
      p.1 = round2 (v k) ∧ p.2 = ⌊(k : ℚ) / (sr : ℚ) * 1000000 * 10⌋₊ := by
  intro p hp
  rcases mem_find_peak_values hp with ⟨i, hi, hstep⟩
  have hin : i < n := mem_windowStarts_lt hw hi
  have hne : windowData v n (sample_window sr) i ≠ [] := windowData_ne_nil hw hin
  have hidx : argmaxAbs (windowData v n (sample_window sr) i)
      < min (sample_window sr) (n - i) := by
    have := argmaxAbs_lt_length hne
    rwa [windowData_length] at this
  rcases windowStep_some hstep with ⟨-, hpe⟩
  refine ⟨i + argmaxAbs (windowData v n (sample_window sr) i), ?_, ?_, ?_⟩
  · have := Nat.min_le_right (sample_window sr) (n - i)
    omega
  · rw [hpe, windowData_getD hidx]
  · rw [hpe]
    show (i + argmaxAbs (windowData v n (sample_window sr) i)) * 10000000 / sr = _
    rw [nat_div_eq_floor]
    congr 1
    push_cast
    ring

/-- Witness for C3 (amended): the concrete run behind the counterexample —
one peak at offset 2 of a 3-sample buffer at 3 kHz. -/
theorem c3_elapsed_floor_witness :
    0 < sample_window 3000 ∧
    ∃ k : ℕ, k < 3 ∧
      ((500 : ℚ), (6666 : ℕ)).1 = round2 ((fun k => if k = 2 then (500 : ℚ) else 0) k) ∧
      ((500 : ℚ), (6666 : ℕ)).2 = ⌊(k : ℚ) / (3000 : ℚ) * 1000000 * 10⌋₊ :=
  ⟨by decide,
    c3_elapsed_floor 3000 100 (fun k => if k = 2 then (500 : ℚ) else 0) 3 (by decide)
      ((500 : ℚ), (6666 : ℕ)) (by rw [find_peak_3000]; exact List.mem_singleton_self _)⟩

/-- C3 counterexample: on a 3-sample buffer at 3 kHz with a 500 mV spike at
offset 2, the code records elapsed time 6666 (truncation of 6666.67), while
`round(2 / 3000 × 1e6 × 10)` as the claim states equals 6667. -/
theorem c3_counterexample :
    find_peak_values 3000 100 (fun k => if k = 2 then (500 : ℚ) else 0) 3 = [(500, 6666)] ∧
    round ((2 : ℚ) / 3000 * 1000000 * 10) = 6667 ∧ (6666 : ℕ) ≠ 6667 := by
  refine ⟨find_peak_3000, ?_, by decide⟩
  rw [show (2 : ℚ) / 3000 * 1000000 * 10 = 20000 / 3 from by norm_num, round_eq]
  rw [show (20000 : ℚ) / 3 + 1 / 2 = 40003 / 6 from by norm_num]
  rw [Int.floor_eq_iff]
  norm_num

/-! ## The end-to-end spike scenario (C6) -/

theorem getD_replicate_zero (k j : ℕ) : (List.replicate k (0 : ℚ)).getD j 0 = 0 := by
  rcases Nat.lt_or_ge j k with h | h
  · rw [List.getD_eq_getElem _ 0 (by simpa using h)]
    simp
  · rw [List.getD_eq_default _ 0 (by simpa using h)]

theorem maxAbs_replicate_zero (k : ℕ) : maxAbs (List.replicate k (0 : ℚ)) = 0 := by
  induction k with
  | zero => rfl
  | succ k ih =>
      rw [List.replicate_succ, maxAbs_cons, ih]
      simp

theorem vSpike_eq (k : ℕ) :
    digital_to_voltage 1 reSpike k = if k = 1500000 then 500 else 0 := by
  unfold digital_to_voltage reSpike
  split_ifs <;> norm_num

theorem spike_windowData_miss (m : ℕ) (hm : m < 1000) (hne : m ≠ 750) :
    windowData (digital_to_voltage 1 reSpike) 2000000 (sample_window 2000000) (m * 2000)
      = List.replicate 2000 0 := by
  have hub : m * 2000 ≤ 999 * 2000 := Nat.mul_le_mul_right 2000 (by omega)
  have hmin : min (sample_window 2000000) (2000000 - m * 2000) = 2000 := by
    rw [show sample_window 2000000 = 2000 from rfl]
    omega
  unfold windowData
  rw [hmin]
  refine List.eq_replicate_iff.mpr ⟨by simp, ?_⟩
  intro b hb
  rcases List.mem_map.mp hb with ⟨j, hj, rfl⟩
  rw [List.mem_range] at hj
  rw [vSpike_eq, if_neg]
  rcases Nat.lt_or_ge m 750 with h | h
  · have : m * 2000 ≤ 749 * 2000 := Nat.mul_le_mul_right 2000 (by omega)
    omega
  · have h751 : 751 ≤ m := by omega
    have : 751 * 2000 ≤ m * 2000 := Nat.mul_le_mul_right 2000 h751
    omega

theorem spike_windowStep_miss (m : ℕ) (hm : m < 1000) (hne : m ≠ 750) :
    windowStep 2000000 100 (digital_to_voltage 1 reSpike) 2000000 (m * 2000) = none := by
  unfold windowStep
  rw [spike_windowData_miss m hm hne, getD_replicate_zero, round2_zero]
  rw [if_neg (by norm_num : ¬ ((100 : ℚ) ≤ |(0 : ℚ)|))]

set_option maxRecDepth 10000 in
theorem spike_windowData_hit :
    windowData (digital_to_voltage 1 reSpike) 2000000 (sample_window 2000000) (750 * 2000)
      = 500 :: List.replicate 1999 0 := by
  unfold windowData
  rw [show min (sample_window 2000000) (2000000 - 750 * 2000) = 2000 from rfl]
  rw [show (2000 : ℕ) = 1999 + 1 from rfl, List.range_succ_eq_map]
  rw [List.map_cons, List.map_map]
  congr 1
  · rw [vSpike_eq]
    norm_num
  · refine List.eq_replicate_iff.mpr ⟨by simp, ?_⟩
    intro b hb
    rcases List.mem_map.mp hb with ⟨j, hj, rfl⟩
    simp only [Function.comp_apply]
    rw [vSpike_eq, if_neg (by omega)]

theorem spike_maxAbs_hit : maxAbs (500 :: List.replicate 1999 0) = 500 := by
  rw [maxAbs_cons, maxAbs_replicate_zero]
  rw [show |(500 : ℚ)| = 500 from by norm_num]
  exact max_eq_left (by norm_num)

theorem spike_argmaxAbs_hit : argmaxAbs (500 :: List.replicate 1999 0) = 0 := by
  unfold argmaxAbs
  rw [List.findIdx_cons, spike_maxAbs_hit]
  rw [show decide (|(500 : ℚ)| = 500) = true from by norm_num]
  rfl

theorem spike_windowStep_hit :
    windowStep 2000000 100 (digital_to_voltage 1 reSpike) 2000000 (750 * 2000)
      = some (500, 7500000) := by
  unfold windowStep
  rw [spike_windowData_hit, spike_argmaxAbs_hit]
  rw [show List.getD ((500 : ℚ) :: List.replicate 1999 0) 0 0 = 500 from rfl]
  rw [show round2 (500 : ℚ) = 500 from by simpa using round2_natCast 500]
  rw [if_pos (by norm_num : (100 : ℚ) ≤ |(500 : ℚ)|)]

/-- A `filterMap` over a mapped `range N` when exactly one index yields a value. -/
theorem filterMap_map_range_single (f : ℕ → Option (ℚ × ℕ)) (g : ℕ → ℕ) (N m0 : ℕ)
    (hm0 : m0 < N) (a : ℚ × ℕ) (hhit : f (g m0) = some a)
    (hmiss : ∀ m < N, m ≠ m0 → f (g m) = none) :
    List.filterMap f ((List.range N).map g) = [a] := by
  induction N with
  | zero => omega
  | succ N ih =>
      rw [List.range_succ, List.map_append, List.filterMap_append]
      rcases Nat.lt_or_ge m0 N with h | h
      · rw [ih h (fun m hm hne => hmiss m (by omega) hne)]
        have hN : f (g N) = none := hmiss N (by omega) (by omega)
        simp [hN]
      · have hm0N : m0 = N := by omega
        subst hm0N
        have hnil : List.filterMap f ((List.range m0).map g) = [] := by
          refine List.filterMap_eq_nil_iff.mpr ?_
          intro b hb
          rcases List.mem_map.mp hb with ⟨m, hm, rfl⟩
          rw [List.mem_range] at hm
          exact hmiss m (by omega) (by omega)
        rw [hnil]
        simp [hhit]

set_option maxRecDepth 100000 in
/-- The full spike run: exactly one peak, value 500, elapsed 7,500,000
scaled-microsecond units. -/
theorem find_peak_spike :
    find_peak_values 2000000 100 (digital_to_voltage 1 reSpike) 2000000
      = [(500, 7500000)] := by
  unfold find_peak_values
  rw [show windowStarts 2000000 (sample_window 2000000)
        = (List.range 1000).map (· * 2000) from rfl]
  refine filterMap_map_range_single _ _ 1000 750 (by omega) (500, 7500000) ?_ ?_
  · exact spike_windowStep_hit
  · intro m hm hne
    exact spike_windowStep_miss m hm hne

/-- C6 counterexample: in the end-to-end scenario (2,000,000 samples at
2,000,000 Hz, one 500 mV spike at index 1,500,000, trigger 100) the single
recorded peak has elapsed offset 7,500,000 scaled-microsecond units, not the
750,000,000 the claim states. -/
theorem c6_counterexample :
    (find_peak_values 2000000 100 (digital_to_voltage 1 reSpike) 2000000).map Prod.snd
      = [7500000] ∧ (7500000 : ℕ) ≠ 750000000 := by
  rw [find_peak_spike]
  exact ⟨rfl, by norm_num⟩

/-- A one-entry batch is appended, as one line, to exactly its own second's
segment file. -/
theorem write_to_file_singleton (sec : ℕ) (frac : List Char) (val : ℚ) :
    write_to_file [(sec, frac, val)] sec = [(nat_repr (digitsVal frac), val)] := by
  unfold write_to_file
  simp

/-- C6 amended: the end-to-end scenario produces exactly one peak record, of
value 500.00 at offset 7,500,000 scaled-microsecond units, and it is emitted
into the segment file for `base_second` (or `base_second + 1` when the base
fraction plus 7,500,000 carries past 10,000,000 units). -/
theorem c6_end_to_end (file_sec file_microsec : ℕ) :
    find_peak_values 2000000 100 (digital_to_voltage 1 reSpike) 2000000
      = [(500, 7500000)] ∧
    process_segments 2000000 100 1 reSpike 2000000 file_sec file_microsec
      = [((peakTimeSec file_sec file_microsec 7500000).1,
          (peakTimeSec file_sec file_microsec 7500000).2, 500)] ∧
    (peakTimeSec file_sec file_microsec 7500000).1
      = (if file_microsec + 7500000 < 10000000 then file_sec else file_sec + 1) ∧
    write_to_file (process_segments 2000000 100 1 reSpike 2000000 file_sec file_microsec)
        ((peakTimeSec file_sec file_microsec 7500000).1)
      = [(nat_repr (digitsVal (peakTimeSec file_sec file_microsec 7500000).2), 500)] := by
  have hps : process_segments 2000000 100 1 reSpike 2000000 file_sec file_microsec
      = [((peakTimeSec file_sec file_microsec 7500000).1,
          (peakTimeSec file_sec file_microsec 7500000).2, 500)] := by
    unfold process_segments
    rw [find_peak_spike]
    rfl
  refine ⟨find_peak_spike, hps, ?_, ?_⟩
  · unfold peakTimeSec
    split_ifs <;> rfl
  · rw [hps, write_to_file_singleton]

/-! ## Filename-geometry claims (C10) -/

theorem encode_stem_length (site : List Char) (S F : ℕ) (hF : F < 10000000) :
    (encode_stem site S F).length = site.length + (nat_repr S).length + 8 := by
  unfold encode_stem
  rw [List.length_append, List.length_append, List.length_cons,
    zfill_length (nat_repr_length_le (by norm_num) hF)]

/-- C10 amended: the detector hard-codes stem positions 4..13 and 15..21 behind
a stem-length-22 gate.  Whenever the site-name length plus the digit count of
the second differs from 14, every writer-produced capture file is skipped; and
when the site name has length exactly 4 and the second has exactly 10 digits,
the file is accepted and parses back to exactly the encoded pair.  (A
22-character stem can also arise from other site lengths — see the
counterexample — so the 4/10 shape is sufficient but not necessary.) -/
theorem c10_parse_geometry :
    (∀ (site : List Char) (S F : ℕ) (ext : List Char), F < 10000000 →
        site.length + (nat_repr S).length ≠ 14 →
        run_file_step (encode_stem site S F) ext = DetectorAction.skip) ∧
    (∀ (site : List Char) (S F : ℕ), site.length = 4 →
        1000000000 ≤ S → S < 10000000000 → F < 10000000 →
        run_file_step (encode_stem site S F) ['n', 'p', 'y']
          = DetectorAction.process S F) := by
  constructor
  · intro site S F ext hF hlen
    unfold run_file_step
    rw [if_pos]
    left
    rw [encode_stem_length site S F hF]
    omega
  · intro site S F hsite hSl hSh hF
    have hp := parse_stem_encode_stem hsite hSl hSh hF
    have hSlen : (nat_repr S).length = 10 :=
      nat_repr_length (e := 9) (by norm_num; omega) (by norm_num; omega)
    unfold run_file_step
    rw [if_neg, hp]
    push_neg
    constructor
    · rw [encode_stem_length site S F hF]
      omega
    · decide

/-- Witness for C10 (amended): a 2-character site is always skipped; the
4-character site round-trips through the detector's parse. -/
theorem c10_parse_geometry_witness :
    run_file_step (encode_stem ['C', 'K'] 1712345678 5) ['n', 'p', 'y']
        = DetectorAction.skip ∧
    run_file_step (encode_stem ['C', 'K', 'J', 'P'] 1712345678 123456) ['n', 'p', 'y']
        = DetectorAction.process 1712345678 123456 := by
  constructor
  · exact c10_parse_geometry.1 ['C', 'K'] 1712345678 5 ['n', 'p', 'y'] (by norm_num) (by decide)
  · exact c10_parse_geometry.2 ['C', 'K', 'J', 'P'] 1712345678 123456 (by decide) (by norm_num)
      (by norm_num) (by norm_num)

/-- C10 counterexample: the 5-character site name `ABCD0` with the 9-digit
second 123456789 yields a 22-character stem that the detector accepts and
parses back to exactly the encoded pair — refuting that correct parsing occurs
only for a 4-character site with a 10-digit second, and that any other
site-name length makes every capture file skipped or misparsed. -/
theorem c10_counterexample :
    (['A', 'B', 'C', 'D', '0'] : List Char).length ≠ 4 ∧
    (encode_stem ['A', 'B', 'C', 'D', '0'] 123456789 23456).length = 22 ∧
    run_file_step (encode_stem ['A', 'B', 'C', 'D', '0'] 123456789 23456) ['n', 'p', 'y']
      = DetectorAction.process 123456789 23456 := by
  refine ⟨by decide, by decide, by decide⟩

end LLTS
